import Mathlib

/-!
Shallow embedding of the audio-classification core of `src/app.py`:
feature extraction (optional container conversion, decoding, MFCC
padding/truncation), the fallback emotion classifier, and the analytics
recorder.  Calls into external libraries (pydub, librosa decode,
librosa MFCC) are modelled as parameters of an environment record; the
control flow, arithmetic and data handling around them follow the
source line by line.
-/

namespace App

/-- `SR = 22050` from `app.py`. -/
def SR : Nat := 22050

/-- `N_MFCC = 40` from `app.py`. -/
def N_MFCC : Nat := 40

/-- `MAX_PAD_LEN = 174` from `app.py`. -/
def MAX_PAD_LEN : Nat := 174

/-- `EMOTION_LABELS` from `app.py` line 36. -/
def EMOTION_LABELS : List String :=
  ["neutral", "calm", "happy", "sad", "angry", "fear", "disgust", "surprise"]

/-- A feature matrix, row-major: one list of frame values per MFCC coefficient. -/
abbrev FeatureMatrix := List (List ℚ)

/-- Sum of all entries of the matrix. -/
def matSum (m : FeatureMatrix) : ℚ := (m.map List.sum).sum

/-- Number of entries of the matrix. -/
def matCount (m : FeatureMatrix) : Nat := (m.map List.length).sum

/-- `np.mean(mfcc)`: the sum of the entries over their number. -/
def matMean (m : FeatureMatrix) : ℚ := matSum m / (matCount m : ℚ)

/-- Python `int(...)` applied to a real value: truncation toward zero. -/
def pyInt (q : ℚ) : ℤ := if 0 ≤ q then ⌊q⌋ else ⌈q⌉

/-- `idx = int(abs(mean_val * 100)) % len(EMOTION_LABELS)` (app.py line 184). -/
def fallback_idx (m : FeatureMatrix) : Nat :=
  (pyInt |matMean m * 100|).toNat % EMOTION_LABELS.length

/-- The classifier step of `analyze_saved_file` (app.py lines 174–185): the
trained-model branch is a parameter (the argmax of the network's output);
the fallback branch follows lines 182–185. -/
def classify (model : Option (FeatureMatrix → Nat)) (m : FeatureMatrix) : String :=
  match model with
  | some predict => EMOTION_LABELS.getD (predict m) ""
  | none => EMOTION_LABELS.getD (fallback_idx m) ""

/-- Lines 115–119 of `app.py`: pad the time axis on the right with zeros up
to `maxLen` frames, or truncate to the first `maxLen` frames.  `shape[1]` of
the (rectangular) numpy array is the length of the first row. -/
def padTrunc (maxLen : Nat) (m : FeatureMatrix) : FeatureMatrix :=
  let w := (m.headD []).length
  if w < maxLen then m.map (fun r => r ++ List.replicate (maxLen - w) 0)
  else m.map (fun r => r.take maxLen)

/-- Python `str.split` on a dot, over the character list. -/
def splitDots : List Char → List (List Char)
  | [] => [[]]
  | c :: rest =>
    match splitDots rest with
    | [] => [[c]]
    | g :: gs => if c = '.' then [] :: g :: gs else (c :: g) :: gs

/-- Joining with dots (Python `rsplit` keeps every earlier dot in place). -/
def joinDots : List (List Char) → List Char
  | [] => []
  | [g] => g
  | g :: gs => g ++ '.' :: joinDots gs

/-- `file_path.lower().split('.')[-1]` (app.py lines 72 and 99). -/
def file_ext (path : String) : String :=
  ⟨(splitDots (path.toList.map Char.toLower)).getLastD []⟩

/-- `audio_path.rsplit('.', 1)[0] + '_converted.wav'` (app.py line 69). -/
def wav_target (audio_path : String) : String :=
  let parts := splitDots audio_path.toList
  let stem := if parts.length ≤ 1 then audio_path.toList else joinDots parts.dropLast
  ⟨stem ++ "_converted.wav".toList⟩

/-- Environment abstracting the external libraries: whether `pydub` imports,
whether its decode-and-export succeeds, what `librosa.load` yields for each
path (a raised exception is an `Except.error`), and `librosa.feature.mfcc`. -/
structure Env where
  pydub_available : Bool
  convert_ok : Bool
  load : String → Except String (List ℚ)
  mfccOf : List ℚ → List (List ℚ)

/-- `convert_audio_to_wav` (app.py lines 65–91): on `ImportError` or on any
conversion error it returns `None`; on success it returns the path of the
newly written wav file.  The per-format `AudioSegment.from_file` branches
all reduce to whether decoding succeeds. -/
def convert_audio_to_wav (env : Env) (audio_path : String) : Option String :=
  if env.pydub_available then
    if env.convert_ok then some (wav_target audio_path) else none
  else none

/-- Lines 99–104 of `app.py`: conversion is attempted only for the three
extensions librosa may have trouble with. -/
def conv_result (env : Env) (path : String) : Option String :=
  if file_ext path ∈ ["webm", "mp4", "ogg"] then convert_audio_to_wav env path else none

/-- The upload directory, as the set of files that exist. -/
abbrev FS := String → Bool

/-- Lines 106–121 and 131 of `app.py`: decode, reject empty audio, compute
the MFCC matrix, normalise it to `MAX_PAD_LEN` frames. -/
def loadExtract (env : Env) (fp : String) : Except String FeatureMatrix :=
  match env.load fp with
  | Except.error e => Except.error e
  | Except.ok audio =>
    if audio.length = 0 then Except.error "Audio file is empty or could not be loaded"
    else Except.ok (padTrunc MAX_PAD_LEN (env.mfccOf audio))

/-- `extract_features` (app.py lines 93–140).  Returns the result together
with the final file system: a successful conversion writes the converted
file (line 83) and switches to it if it exists (line 102); the cleanup run
on both the return path (lines 124–129) and the exception path (lines
134–139) removes it again when it differs from the original and exists. -/
def extract_features (env : Env) (fs : FS) (file_path : String) :
    Except String FeatureMatrix × FS :=
  match conv_result env file_path with
  | some p =>
    let fs1 : FS := fun q => if q = p then true else fs q
    let fp := if fs1 p = true then p else file_path
    let fs2 : FS :=
      if fp ≠ file_path ∧ fs1 fp = true then fun q => if q = fp then false else fs1 q else fs1
    (loadExtract env fp, fs2)
  | none => (loadExtract env file_path, fs)

/-- Python `dict.get(k)` on a JSON object modelled as an association list. -/
def dictGet (d : List (String × Nat)) (k : String) : Option Nat :=
  (d.find? (fun p => p.1 == k)).map (fun p => p.2)

/-- Python `d[k] = v`: replace in place when the key is present, append
otherwise. -/
def dictSet (d : List (String × Nat)) (k : String) (v : Nat) : List (String × Nat) :=
  if d.any (fun p => p.1 == k) then
    d.map (fun p => if p.1 == k then (k, v) else p)
  else d ++ [(k, v)]

/-- `update_emotion_analytics` (app.py lines 142–153) acting on the
persistent counter state: read the mapping, increment the label's entry
(default 0), write the whole mapping back; `_write_json_safe` (app.py lines
435–441) swallows write errors and returns `False`, in which case the
stored mapping stays unchanged. -/
def update_emotion_analytics (writeOk : Bool) (emotion : String)
    (counts : List (String × Nat)) : List (String × Nat) :=
  let current := (dictGet counts emotion).getD 0
  if writeOk then dictSet counts emotion (current + 1) else counts

/-- `analyze_saved_file` (app.py lines 168–197): extract features, classify
(model branch or fallback), record analytics, return the label; extraction
failures are re-raised (line 197).  Returns the result, the final file
system and the final persistent counter. -/
def analyze_saved_file (env : Env) (model : Option (FeatureMatrix → Nat)) (fs : FS)
    (counts : List (String × Nat)) (writeOk : Bool) (path : String) :
    Except String String × FS × List (String × Nat) :=
  match extract_features env fs path with
  | (Except.error e, fs') => (Except.error e, fs', counts)
  | (Except.ok mfcc, fs') =>
    let emotion := classify model mfcc
    (Except.ok emotion, fs', update_emotion_analytics writeOk emotion counts)

/-- The all-zero feature matrix of the contract shape. -/
def zeroMatrix : FeatureMatrix := List.replicate N_MFCC (List.replicate MAX_PAD_LEN 0)

/-- Whether an `Except` value is a success. -/
def exceptIsOk : Except String FeatureMatrix → Bool
  | Except.ok _ => true
  | Except.error _ => false

/-- The empty upload directory. -/
def fs0 : FS := fun _ => false


lemma padTrunc_length (maxLen : Nat) (m : FeatureMatrix) :
    (padTrunc maxLen m).length = m.length := by
  simp only [padTrunc]
  split <;> simp

lemma padTrunc_row_length (maxLen : Nat) (m : FeatureMatrix) (n : Nat)
    (h : ∀ r ∈ m, r.length = n) :
    ∀ r ∈ padTrunc maxLen m, r.length = maxLen := by
  cases m with
  | nil => intro r hr; simp [padTrunc] at hr
  | cons a as =>
    have ha : a.length = n := h a (List.mem_cons_self a as)
    intro r hr
    simp only [padTrunc, List.headD_cons] at hr
    split at hr
    · obtain ⟨s, hs, rfl⟩ := List.mem_map.1 hr
      rw [List.length_append, List.length_replicate, h s hs]
      omega
    · obtain ⟨s, hs, rfl⟩ := List.mem_map.1 hr
      rw [List.length_take, h s hs]
      omega

lemma extract_features_fst (env : Env) (fs : FS) (path : String) :
    (extract_features env fs path).1 = loadExtract env ((conv_result env path).getD path) := by
  unfold extract_features
  cases h : conv_result env path with
  | none => simp
  | some p => simp

lemma loadExtract_ok (env : Env) (fp : String) (M : FeatureMatrix)
    (h : loadExtract env fp = Except.ok M) :
    ∃ audio, env.load fp = Except.ok audio ∧ audio ≠ [] ∧
      M = padTrunc MAX_PAD_LEN (env.mfccOf audio) := by
  unfold loadExtract at h
  split at h
  · exact absurd h (by simp)
  · rename_i audio heq
    split at h
    · exact absurd h (by simp)
    · rename_i hlen
      refine ⟨audio, heq, ?_, ?_⟩
      · intro hnil; exact hlen (by simp [hnil])
      · exact (Except.ok.inj h).symm

/-- Claim C1: whenever `extract_features` succeeds, the returned matrix has exactly
`N_MFCC = 40` coefficient rows and `MAX_PAD_LEN = 174` frames per row,
regardless of the duration (length) of the decoded clip; the hypotheses state
the librosa contract that the natural MFCC matrix is rectangular with
`n_mfcc` rows. -/
theorem extract_features_shape (env : Env) (fs : FS) (path : String)
    (hrows : ∀ a, (env.mfccOf a).length = N_MFCC)
    (hrect : ∀ a, ∃ n, ∀ r ∈ env.mfccOf a, r.length = n) :
    ∀ M, (extract_features env fs path).1 = Except.ok M →
      M.length = N_MFCC ∧ ∀ r ∈ M, r.length = MAX_PAD_LEN := by
  intro M hM
  rw [extract_features_fst] at hM
  obtain ⟨audio, -, -, rfl⟩ := loadExtract_ok _ _ _ hM
  constructor
  · rw [padTrunc_length, hrows]
  · obtain ⟨n, hn⟩ := hrect audio
    exact padTrunc_row_length _ _ n hn

def wenv1 : Env := ⟨false, false, fun _ => Except.ok [1], fun _ => List.replicate N_MFCC [5]⟩

def M1 : FeatureMatrix := padTrunc MAX_PAD_LEN (wenv1.mfccOf [1])

theorem extract_features_shape_witness :
    M1.length = N_MFCC ∧ ∀ r ∈ M1, r.length = MAX_PAD_LEN :=
  extract_features_shape wenv1 fs0 "a.wav"
    (fun a => by simp [wenv1])
    (fun a => ⟨1, fun r hr => by
      simp only [wenv1, List.mem_replicate] at hr
      rw [hr.2]
      rfl⟩)
    M1 rfl

/-- Claim C3: the time-axis normalisation of `extract_features` (app.py lines
115–119): a natural matrix with `n < 174` frames is right-padded with
zero frames, so frames `n` to `173` of every row are zero, and a natural
matrix with `n ≥ 174` frames is truncated to the prefix of the first 174
frames of every row. -/
theorem padTrunc_policy (m : FeatureMatrix) (n : Nat) (h : ∀ r ∈ m, r.length = n) :
    (n < MAX_PAD_LEN →
      padTrunc MAX_PAD_LEN m = m.map (fun r => r ++ List.replicate (MAX_PAD_LEN - n) 0) ∧
      ∀ r ∈ padTrunc MAX_PAD_LEN m, r.drop n = List.replicate (MAX_PAD_LEN - n) 0) ∧
    (MAX_PAD_LEN ≤ n → padTrunc MAX_PAD_LEN m = m.map (fun r => r.take MAX_PAD_LEN)) := by
  cases m with
  | nil =>
    constructor
    · intro _
      exact ⟨by simp [padTrunc], by intro r hr; simp [padTrunc] at hr⟩
    · intro _
      simp [padTrunc]
  | cons a as =>
    have ha : a.length = n := h a (List.mem_cons_self a as)
    constructor
    · intro hlt
      have heq : padTrunc MAX_PAD_LEN (a :: as) =
          (a :: as).map (fun r => r ++ List.replicate (MAX_PAD_LEN - n) 0) := by
        simp only [padTrunc, List.headD_cons, ha]
        rw [if_pos hlt]
      refine ⟨heq, ?_⟩
      intro r hr
      rw [heq] at hr
      obtain ⟨s, hs, rfl⟩ := List.mem_map.1 hr
      rw [← h s hs, List.drop_left]
    · intro hge
      simp only [padTrunc, List.headD_cons, ha]
      rw [if_neg (by omega)]

def mC3 : FeatureMatrix := [[1, 2], [3, 4]]

theorem padTrunc_policy_witness :
    padTrunc MAX_PAD_LEN mC3 = mC3.map (fun r => r ++ List.replicate (MAX_PAD_LEN - 2) 0) :=
  ((padTrunc_policy mC3 2 (by decide)).1 (by decide)).1


lemma analyze_fst (env : Env) (model : Option (FeatureMatrix → Nat)) (fs : FS)
    (counts : List (String × Nat)) (writeOk : Bool) (path : String) :
    (analyze_saved_file env model fs counts writeOk path).1 =
      match (extract_features env fs path).1 with
      | Except.error e => Except.error e
      | Except.ok mfcc => Except.ok (classify model mfcc) := by
  unfold analyze_saved_file
  rcases hx : extract_features env fs path with ⟨r, fs'⟩
  cases r <;> rfl

lemma matMean_zeroMatrix : matMean zeroMatrix = 0 := by
  simp [matMean, matSum, zeroMatrix, List.map_replicate, List.sum_replicate]

/-- Claim C2: in the fallback branch (no model loaded) the chosen label index is
`⌊|mean(matrix) * 100|⌋ % 8` into the fixed ordered label list, and the
all-zero matrix gets index 0, label `"neutral"`. -/
theorem fallback_index_spec :
    (∀ m : FeatureMatrix,
      fallback_idx m = (⌊|matMean m * 100|⌋).toNat % 8 ∧
      classify none m = EMOTION_LABELS.getD ((⌊|matMean m * 100|⌋).toNat % 8) "") ∧
    classify none zeroMatrix = "neutral" := by
  have hidx : ∀ m : FeatureMatrix, fallback_idx m = (⌊|matMean m * 100|⌋).toNat % 8 := by
    intro m
    unfold fallback_idx pyInt
    rw [if_pos (abs_nonneg _)]
    rfl
  refine ⟨fun m => ⟨hidx m, ?_⟩, ?_⟩
  · show EMOTION_LABELS.getD (fallback_idx m) "" = _
    rw [hidx m]
  · have h0 : fallback_idx zeroMatrix = 0 := by
      rw [hidx, matMean_zeroMatrix]
      simp
    show EMOTION_LABELS.getD (fallback_idx zeroMatrix) "" = "neutral"
    rw [h0]
    rfl

/-- Claim C10: the fallback index is always in range `[0, 8)`, so indexing the
8-element label list is safe and the fallback label is one of the 8 fixed
labels. -/
theorem fallback_index_in_bounds :
    ∀ m : FeatureMatrix,
      fallback_idx m < EMOTION_LABELS.length ∧ classify none m ∈ EMOTION_LABELS := by
  intro m
  have hlt : fallback_idx m < EMOTION_LABELS.length := Nat.mod_lt _ (by decide)
  refine ⟨hlt, ?_⟩
  show EMOTION_LABELS.getD (fallback_idx m) "" ∈ EMOTION_LABELS
  rw [List.getD_eq_getElem EMOTION_LABELS "" hlt]
  exact List.getElem_mem _

/-- Claim C9: the fallback classifier is deterministic — the classification result
of `analyze_saved_file` with no model depends only on the environment and the
input path, not on the file system, counter state or write outcome, so two
runs on the identical input yield the identical label. -/
theorem fallback_deterministic :
    ∀ (env : Env) (fsa fsb : FS) (ca cb : List (String × Nat)) (wa wb : Bool) (path : String),
      (analyze_saved_file env none fsa ca wa path).1 =
      (analyze_saved_file env none fsb cb wb path).1 := by
  intro env fsa fsb ca cb wa wb path
  rw [analyze_fst, analyze_fst, extract_features_fst, extract_features_fst]

/-- Claim C4: an input that decodes to zero samples makes `extract_features` fail
with the empty-audio error, and `analyze_saved_file` propagates that failure
instead of returning a label. -/
theorem empty_audio_error (env : Env) (model : Option (FeatureMatrix → Nat)) (fs : FS)
    (counts : List (String × Nat)) (writeOk : Bool) (path : String)
    (h : ∀ q, env.load q = Except.ok []) :
    (extract_features env fs path).1 =
      Except.error "Audio file is empty or could not be loaded" ∧
    (analyze_saved_file env model fs counts writeOk path).1 =
      Except.error "Audio file is empty or could not be loaded" := by
  have hx : (extract_features env fs path).1 =
      Except.error "Audio file is empty or could not be loaded" := by
    rw [extract_features_fst]
    unfold loadExtract
    rw [h]
    rfl
  refine ⟨hx, ?_⟩
  rw [analyze_fst, hx]

def wenv4 : Env := ⟨false, false, fun _ => Except.ok [], fun _ => []⟩

theorem empty_audio_error_witness :
    (extract_features wenv4 fs0 "b.wav").1 =
      Except.error "Audio file is empty or could not be loaded" ∧
    (analyze_saved_file wenv4 none fs0 [] true "b.wav").1 =
      Except.error "Audio file is empty or could not be loaded" :=
  empty_audio_error wenv4 none fs0 [] true "b.wav" (fun _ => rfl)

def cenv6 : Env := ⟨false, false, fun _ => Except.ok [1], fun _ => [[1]]⟩

/-- Claim C6 counterexample: with no conversion capability (`pydub` unavailable)
and a `webm` input, `extract_features` does not signal any failure — it
silently continues on the unconverted file and returns a matrix whenever the
primary decoder handles that file. -/
theorem no_converter_counterexample :
    (extract_features cenv6 fs0 "clip.webm").1 =
      Except.ok (padTrunc MAX_PAD_LEN [[1]]) ∧
    exceptIsOk (extract_features cenv6 fs0 "clip.webm").1 = true :=
  ⟨rfl, rfl⟩

/-- Claim C6 amended: when no conversion capability is available, the converter
returns no converted file and `extract_features` proceeds on the original
unconverted file with the primary decoder, leaving the file system
untouched; a failure arises (and propagates) only if that decode itself
fails. -/
theorem no_converter_amended (env : Env) (fs : FS) (path : String)
    (h : env.pydub_available = false) :
    extract_features env fs path = (loadExtract env path, fs) := by
  have hc : conv_result env path = none := by
    unfold conv_result convert_audio_to_wav
    rw [h]
    simp
  unfold extract_features
  rw [hc]

theorem no_converter_amended_witness :
    extract_features cenv6 fs0 "clip.ogg" = (loadExtract cenv6 "clip.ogg", fs0) :=
  no_converter_amended cenv6 fs0 "clip.ogg" rfl

/-- Claim C7: a failed analytics write never fails the user-visible result: the
returned label is the same as with a successful write, the counter is left
unchanged (the increment is skipped), and every successfully extracted input
still gets its label. -/
theorem analytics_write_failure_harmless (env : Env) (model : Option (FeatureMatrix → Nat))
    (fs : FS) (counts : List (String × Nat)) (path : String) :
    (analyze_saved_file env model fs counts false path).1 =
      (analyze_saved_file env model fs counts true path).1 ∧
    (analyze_saved_file env model fs counts false path).2.2 = counts ∧
    ∀ M, (extract_features env fs path).1 = Except.ok M →
      (analyze_saved_file env model fs counts false path).1 = Except.ok (classify model M) := by
  refine ⟨by rw [analyze_fst, analyze_fst], ?_, ?_⟩
  · unfold analyze_saved_file
    rcases hx : extract_features env fs path with ⟨r, fs'⟩
    cases r
    · rfl
    · rfl
  · intro M hM
    rw [analyze_fst, hM]

theorem analytics_write_failure_harmless_witness :
    (analyze_saved_file wenv1 none fs0 [] false "a.wav").1 = Except.ok (classify none M1) :=
  (analytics_write_failure_harmless wenv1 none fs0 [] "a.wav").2.2 M1 rfl

/-- Claim C8: whenever the conversion step creates a re-encoded intermediate file,
that file is gone from the file system returned by `extract_features`, on
every exit path (the cleanup runs on the return path and on the exception
path alike). -/
theorem converted_file_cleanup (env : Env) (fs : FS) (path p : String)
    (hconv : conv_result env path = some p) (hne : p ≠ path) :
    (extract_features env fs path).2 p = false := by
  simp [extract_features, hconv, hne]

def cenv8 : Env := ⟨true, true, fun _ => Except.ok [1], fun _ => [[1]]⟩

theorem converted_file_cleanup_witness :
    (extract_features cenv8 fs0 "clip.webm").2 "clip_converted.wav" = false :=
  converted_file_cleanup cenv8 fs0 "clip.webm" "clip_converted.wav" rfl (by decide)


lemma find_cons_pos {α : Type} (pr : α → Bool) (a : α) (l : List α) (h : pr a = true) :
    List.find? pr (a :: l) = some a :=
  List.find?_cons_of_pos l h

lemma find_cons_neg {α : Type} (pr : α → Bool) (a : α) (l : List α) (h : ¬pr a = true) :
    List.find? pr (a :: l) = List.find? pr l :=
  List.find?_cons_of_neg l h

lemma find_map_self (k : String) (v : Nat) (d : List (String × Nat))
    (h : d.any (fun p => p.1 == k) = true) :
    (d.map (fun p => if p.1 == k then (k, v) else p)).find? (fun p => p.1 == k) =
      some (k, v) := by
  induction d with
  | nil => simp at h
  | cons p d ih =>
    rw [List.map_cons]
    by_cases hp : (p.1 == k) = true
    · rw [if_pos hp]
      exact find_cons_pos _ _ _ (by simp)
    · rw [Bool.not_eq_true] at hp
      have hd : d.any (fun p => p.1 == k) = true := by
        rw [List.any_cons, hp] at h
        simpa using h
      rw [if_neg (by simp [hp]), find_cons_neg _ _ _ (by simp [hp])]
      exact ih hd

lemma find_map_other (k k' : String) (v : Nat) (hk : k' ≠ k) (d : List (String × Nat)) :
    (d.map (fun p => if p.1 == k then (k, v) else p)).find? (fun p => p.1 == k') =
      d.find? (fun p => p.1 == k') := by
  induction d with
  | nil => rfl
  | cons p d ih =>
    rw [List.map_cons]
    by_cases hp : (p.1 == k) = true
    · have hpk : p.1 = k := by simpa using hp
      have h2 : ¬((p.1 == k') = true) := by simp [hpk, Ne.symm hk]
      rw [if_pos hp, find_cons_neg (fun q => q.1 == k') (k, v) _ (by simp [Ne.symm hk]),
        find_cons_neg (fun q => q.1 == k') p d h2]
      exact ih
    · rw [if_neg hp]
      by_cases hq : (p.1 == k') = true
      · rw [find_cons_pos (fun q => q.1 == k') p _ hq, find_cons_pos (fun q => q.1 == k') p d hq]
      · rw [find_cons_neg (fun q => q.1 == k') p _ hq, find_cons_neg (fun q => q.1 == k') p d hq]
        exact ih

lemma find_append_self (k : String) (v : Nat) (d : List (String × Nat))
    (h : d.any (fun p => p.1 == k) = false) :
    (d ++ [(k, v)]).find? (fun p => p.1 == k) = some (k, v) := by
  induction d with
  | nil =>
    rw [List.nil_append]
    exact find_cons_pos _ _ _ (by simp)
  | cons p d ih =>
    rw [List.any_cons] at h
    have hp : (p.1 == k) = false := by
      revert h
      cases p.1 == k <;> simp
    have hd : d.any (fun p => p.1 == k) = false := by
      rw [hp] at h
      simpa using h
    rw [List.cons_append, find_cons_neg _ _ _ (by simp [hp])]
    exact ih hd

lemma find_append_other (k k' : String) (v : Nat) (hk : k' ≠ k) (d : List (String × Nat)) :
    (d ++ [(k, v)]).find? (fun p => p.1 == k') = d.find? (fun p => p.1 == k') := by
  induction d with
  | nil =>
    rw [List.nil_append, find_cons_neg (fun q => q.1 == k') (k, v) [] (by simp [Ne.symm hk])]
  | cons p d ih =>
    rw [List.cons_append]
    by_cases hq : (p.1 == k') = true
    · rw [find_cons_pos (fun q => q.1 == k') p _ hq, find_cons_pos (fun q => q.1 == k') p d hq]
    · rw [find_cons_neg (fun q => q.1 == k') p _ hq, find_cons_neg (fun q => q.1 == k') p d hq]
      exact ih

lemma dictGet_dictSet_self (d : List (String × Nat)) (k : String) (v : Nat) :
    dictGet (dictSet d k v) k = some v := by
  unfold dictGet dictSet
  by_cases h : d.any (fun p => p.1 == k) = true
  · rw [if_pos h, find_map_self k v d h]
    rfl
  · rw [Bool.not_eq_true] at h
    rw [if_neg (by simp [h]), find_append_self k v d h]
    rfl

lemma dictGet_dictSet_other (d : List (String × Nat)) (k k' : String) (v : Nat)
    (hk : k' ≠ k) :
    dictGet (dictSet d k v) k' = dictGet d k' := by
  unfold dictGet dictSet
  by_cases h : d.any (fun p => p.1 == k) = true
  · rw [if_pos h, find_map_other k k' v hk d]
  · rw [if_neg h, find_append_other k k' v hk d]

/-- Claim C5: `update_emotion_analytics` with a successful write stores back a
mapping where the recorded label's entry is its previous value plus one
(starting at 1 when absent) and every other label's entry is unchanged;
recording `happy` three times and then `sad` once starting from the empty
counter yields exactly `{happy: 3, sad: 1}`. -/
theorem record_spec :
    (∀ (label : String) (d : List (String × Nat)),
      dictGet (update_emotion_analytics true label d) label =
        some ((dictGet d label).getD 0 + 1) ∧
      ∀ k, k ≠ label → dictGet (update_emotion_analytics true label d) k = dictGet d k) ∧
    update_emotion_analytics true "sad"
      (update_emotion_analytics true "happy"
        (update_emotion_analytics true "happy"
          (update_emotion_analytics true "happy" []))) = [("happy", 3), ("sad", 1)] := by
  refine ⟨fun label d => ⟨?_, fun k hk => ?_⟩, by rfl⟩
  · unfold update_emotion_analytics
    rw [if_pos rfl]
    exact dictGet_dictSet_self d label _
  · unfold update_emotion_analytics
    rw [if_pos rfl]
    exact dictGet_dictSet_other d label k _ hk

theorem record_spec_witness :
    dictGet (update_emotion_analytics true "happy" [("sad", 2)]) "happy" = some 1 ∧
    dictGet (update_emotion_analytics true "happy" [("sad", 2)]) "sad" = some 2 := by
  constructor
  · rw [(record_spec.1 "happy" [("sad", 2)]).1]
    rfl
  · rw [(record_spec.1 "happy" [("sad", 2)]).2 "sad" (by decide)]
    rfl

end App
